import Mathlib

/-!
Verification of the ALT Linux OVAL vulnerability source of trivy-db
(`pkg/vulnsrc/alt`): a shallow embedding of the reference-resolution,
criteria-walking, advisory-building, merging and query code, together with
theorems settling the specification claims about it.

Conventions of the embedding:
* Go maps are modelled as association lists (`List (κ × α)`) with
  `alookup` (first match) and `mapInsert` (replace the existing binding in
  place, else append), which reproduces Go map lookup/assignment semantics;
* Go string helpers (`strings.Split`, `strings.Contains`,
  `strings.HasPrefix`, `strings.ToLower`) are embedded as structurally
  recursive functions over `String.data` so that every definition is
  executable by the kernel;
* Go errors are `Except` values; the `ReferenceError` produced by
  `followTestRefs` is kept structured (the missing reference ID and the
  owning test ID) instead of a formatted message;
* the package-level mutable slice `vendorCVEs` is threaded explicitly as
  state through `parseOVAL`/`Update`.
-/

namespace AltOval

/-! ## Generic helpers: Go maps and Go string functions -/

/-- Association-list lookup, first binding wins (Go map read). -/
def alookup {κ α : Type} [DecidableEq κ] (k : κ) : List (κ × α) → Option α
  | [] => none
  | p :: ps => if p.1 = k then some p.2 else alookup k ps

/-- Association-list insertion reproducing Go map assignment `m[k] = v`:
replace the existing binding in place, otherwise append a new one. -/
def mapInsert {κ α : Type} [DecidableEq κ] (m : List (κ × α)) (k : κ) (v : α) :
    List (κ × α) :=
  match alookup k m with
  | some _ => m.map (fun p => if p.1 = k then (k, v) else p)
  | none => m ++ [(k, v)]

/-- Split a character list on the pipe character, Go `strings.Split(s, "|")`
semantics: `"a|b" ↦ ["a","b"]`, `"|" ↦ ["",""]`, `"a" ↦ ["a"]`. -/
def splitOnPipe : List Char → List (List Char)
  | [] => [[]]
  | c :: cs =>
    if c = '|' then [] :: splitOnPipe cs
    else
      match splitOnPipe cs with
      | [] => [[c]]
      | g :: gs => (c :: g) :: gs

/-- Go `strings.Split(s, "|")`. -/
def splitPipe (s : String) : List String :=
  (splitOnPipe s.data).map (fun cs => String.mk cs)

/-- Contiguous-sublist test on character lists. -/
def isSubList (needle : List Char) : List Char → Bool
  | [] => needle.isEmpty
  | c :: rest => needle.isPrefixOf (c :: rest) || isSubList needle rest

/-- Go `strings.Contains(s, substr)`. -/
def stringsContains (s substr : String) : Bool := isSubList substr.data s.data

/-- Go `strings.HasPrefix(s, p)`. -/
def strHasPre (s p : String) : Bool := p.data.isPrefixOf s.data

/-- Go `strings.ToLower` (per-character lowering; inputs here are ASCII). -/
def lowerString (s : String) : String := String.mk (s.data.map Char.toLower)

/-! ## Data model

The OVAL record types of the feed.  Their Go declarations live in the
package's types file; the field shapes below are the ones the code under
verification reads and the external-interface section of the design
document lists. -/

/-- `{id, name}` — a package identity (`RPMInfoObject`). -/
structure RPMInfoObject where
  ID : String
  Name : String
deriving DecidableEq, Repr

/-- One matcher of a state record: `{datatype, operation, text}`. -/
structure StateMatcher where
  Datatype : String
  Operation : String
  Text : String
deriving DecidableEq, Repr

/-- A state record describing a version/architecture constraint. -/
structure RPMInfoState where
  ID : String
  Arch : StateMatcher
  EVR : StateMatcher
deriving DecidableEq, Repr

/-- The object-reference field of a test. -/
structure TestObject where
  ObjectRef : String
deriving DecidableEq, Repr

/-- The state-reference field of a test. -/
structure TestState where
  StateRef : String
deriving DecidableEq, Repr

/-- `{id, objectRef, stateRef}` — links a test to an object and optionally
a state. -/
structure RPMInfoTest where
  ID : String
  Object : TestObject
  State : TestState
deriving DecidableEq, Repr

/-- The per-test fact produced by reference resolution. -/
structure resolvedTest where
  Name : String
  FixedVersion : String
  Arch : String
deriving DecidableEq, Repr

/-- The structured content of the `ReferenceError` raised when a test
points at a missing object or state record. -/
inductive RefError where
  | objectRefMissing (refID : String) (testID : String)
  | stateRefMissing (refID : String) (testID : String)
deriving DecidableEq, Repr

/-- A reference attached to a definition: `{refId, refUrl, source}`. -/
structure Reference where
  RefID : String
  RefURL : String
  Source : String
deriving DecidableEq, Repr

/-- A vendor bulletin cross-reference: `{id, impact, href}`. -/
structure BDU where
  ID : String
  Impact : String
  Href : String
deriving DecidableEq, Repr

/-- An upstream CVE cross-reference: `{id, impact}`. -/
structure OvalCVE where
  ID : String
  Impact : String
deriving DecidableEq, Repr

/-- The affected-platform list of a definition. -/
structure AffectedCPEs where
  CPEs : List String
deriving DecidableEq, Repr

/-- The advisory block of a definition's metadata:
`{severity, bdus, cves, affectedCPEs}`. -/
structure AdvisoryMeta where
  Severity : String
  BDUs : List BDU
  CVEs : List OvalCVE
  AffectedCPEs : AffectedCPEs
deriving DecidableEq, Repr

/-- A definition's metadata. -/
structure Metadata where
  Title : String
  Description : String
  References : List Reference
  Advisory : AdvisoryMeta
deriving DecidableEq, Repr

/-- One leaf of a criteria tree: a test reference. -/
structure Criterion where
  TestRef : String
deriving DecidableEq, Repr

/-- The criteria tree of a definition: direct test references plus child
subtrees. -/
inductive Criteria where
  | mk : List Criterion → List Criteria → Criteria

/-- Direct test references of a criteria node. -/
def Criteria.Criterions : Criteria → List Criterion
  | .mk a _ => a

/-- Child subtrees of a criteria node. -/
def Criteria.Criterias : Criteria → List Criteria
  | .mk _ b => b

/-- An advisory definition. -/
structure Definition where
  ID : String
  Metadata : Metadata
  Criteria : Criteria

/-- The severity scale of `types.Severity`. -/
inductive Severity where
  | Unknown
  | Low
  | Medium
  | High
  | Critical
deriving DecidableEq, Repr

/-- A vulnerability record `{id, severity}` (`CVEEntry`). -/
structure CVEEntry where
  ID : String
  Severity : Severity
deriving DecidableEq, Repr

/-- A vendor-catalog record (`VendorCVE`). -/
structure VendorCVE where
  CVE : CVEEntry
  Title : String
  Description : String
  References : List String
deriving DecidableEq, Repr

/-- An affected-package fact emitted by the criteria walk (`pkg`). -/
structure pkg where
  Name : String
  FixedVersion : String
  Arches : List String
deriving DecidableEq, Repr

/-- The bucket key `(packageName, vulnerabilityID)`. -/
structure bucket where
  packageName : String
  vulnerabilityID : String
deriving DecidableEq, Repr

/-- One version/architecture-scoped advisory entry. -/
structure Entry where
  CVEs : List CVEEntry
  FixedVersion : String
  AffectedCPEList : List String
  Arches : List String
deriving DecidableEq, Repr

/-- The per-file value stored under a bucket key (`DefinitionSpecial`). -/
structure DefinitionSpecial where
  Entry : Entry
deriving DecidableEq, Repr

/-- The merged value stored under a bucket key (`AdvisorySpecial`). -/
structure AdvisorySpecial where
  Entries : List Entry
deriving DecidableEq, Repr

/-- A query result (`types.Advisory`, the fields this source populates). -/
structure TypesAdvisory where
  VulnerabilityID : String
  VendorIDs : List String
  Severity : Severity
  FixedVersion : String
  Arches : List String
deriving DecidableEq, Repr

/-! ## Reference resolution (`followTestRefs`, `resolveTests`) -/

/-- `followTestRefs`: join one raw test with the object and state tables. -/
def followTestRefs (test : RPMInfoTest)
    (objects : List (String × RPMInfoObject))
    (states : List (String × RPMInfoState)) : Except RefError resolvedTest :=
  let t : resolvedTest := { Name := "", FixedVersion := "", Arch := "" }
  -- Follow object ref
  if test.Object.ObjectRef = "" then .ok t
  else
    match alookup test.Object.ObjectRef objects with
    | none => .error (.objectRefMissing test.Object.ObjectRef test.ID)
    | some obj =>
      let t := { t with Name := obj.Name }
      -- Follow state ref
      if test.State.StateRef = "" then .ok t
      else
        match alookup test.State.StateRef states with
        | none => .error (.stateRefMissing test.State.StateRef test.ID)
        | some state =>
          let t :=
            if state.Arch.Datatype = "string" ∧
                (state.Arch.Operation = "pattern match" ∨ state.Arch.Operation = "equals")
            then { t with Arch := state.Arch.Text }
            else t
          let t :=
            if state.EVR.Datatype = "evr_string" ∧ state.EVR.Operation = "less than"
            then { t with FixedVersion := state.EVR.Text }
            else t
          .ok t

/-- The loop body of `resolveTests`: resolve each test in order, stopping at
the first failure, and record the fact under the test's ID. -/
def resolveTestsAux (objects : List (String × RPMInfoObject))
    (states : List (String × RPMInfoState)) :
    List RPMInfoTest → List (String × resolvedTest) →
    Except RefError (List (String × resolvedTest))
  | [], acc => .ok acc
  | test :: rest, acc =>
    match followTestRefs test objects states with
    | .error e => .error e
    | .ok t => resolveTestsAux objects states rest (mapInsert acc test.ID t)

/-- `resolveTests`: build the per-file fact table, aborting on the first
reference error. -/
def resolveTests (tests : List RPMInfoTest)
    (objects : List (String × RPMInfoObject))
    (states : List (String × RPMInfoState)) :
    Except RefError (List (String × resolvedTest)) :=
  resolveTestsAux objects states tests []

/-! ## Identifier and severity helpers -/

/-- `severityFromImpact`: case-insensitive total severity mapping. -/
def severityFromImpact (sev : String) : Severity :=
  if lowerString sev = "low" then .Low
  else if lowerString sev = "medium" then .Medium
  else if lowerString sev = "high" then .High
  else if lowerString sev = "critical" then .Critical
  else .Unknown

/-- `vendorID`: scan the references for one with source tag `ALTPU`,
returning at the first hit. -/
def vendorID : List Reference → String
  | [] => ""
  | ref :: refs => if ref.Source = "ALTPU" then ref.RefID else vendorID refs

/-- `vendorCVE`: the vendor's own vulnerability record; the loop keeps
overwriting `id` with every ALT-branded refID it sees. -/
def vendorCVE (metadata : Metadata) : CVEEntry :=
  let id := metadata.References.foldl
    (fun id r => if stringsContains r.RefID "ALT" then r.RefID else id) ""
  { ID := id, Severity := severityFromImpact metadata.Advisory.Severity }

/-- `toReferences`: project the reference URLs. -/
def toReferences (references : List Reference) : List String :=
  references.map (fun r => r.RefURL)

/-- `contains`: linear membership scan over a string list. -/
def contains : List String → String → Bool
  | [], _ => false
  | e :: rest, val => if e = val then true else contains rest val

/-! ## Criteria walk (`walkCriterion`) -/

mutual

/-- `walkCriterion`: collect the affected-package facts of a criteria node —
its own resolvable test refs first, then each child's results. -/
def walkCriterion : Criteria → List (String × resolvedTest) → List pkg
  | .mk crits subs, tests =>
    let packages := crits.filterMap (fun c =>
      (alookup c.TestRef tests).map (fun t =>
        { Name := t.Name, FixedVersion := t.FixedVersion,
          Arches := if t.Arch = "" then [] else splitPipe t.Arch }))
    if subs.isEmpty then packages
    else packages ++ walkCriterionList subs tests
  termination_by structural c => c

/-- The loop of `walkCriterion` over the child subtrees (results appended
only when non-empty, as in the source). -/
def walkCriterionList : List Criteria → List (String × resolvedTest) → List pkg
  | [], _ => []
  | c :: cs, tests =>
    (if (walkCriterion c tests).length ≠ 0 then walkCriterion c tests else []) ++
      walkCriterionList cs tests
  termination_by structural l => l

end

/-! ## Advisory builder (the definition loop of `parseOVAL`)

The Go code appends to the package-level slice `vendorCVEs` while it builds
the per-file `defs` map, so the builder is modelled as a state transformer
on the pair `(defs, vendorCVEs)`. -/

/-- The vulnerability-record list built for one definition: the vendor's own
record, then one per bulletin, then one per upstream CVE. -/
def cveEntriesOf (md : Metadata) : List CVEEntry :=
  [vendorCVE md] ++
    md.Advisory.BDUs.map (fun bdu =>
      { ID := bdu.ID, Severity := severityFromImpact bdu.Impact }) ++
    md.Advisory.CVEs.map (fun cve =>
      { ID := cve.ID, Severity := severityFromImpact cve.Impact })

/-- The entry stored under `(packageName, vendorID)` when a canonical vendor
identifier exists. -/
def mkEntry (md : Metadata) (affectedPkg : pkg) : Entry :=
  { CVEs := cveEntriesOf md,
    FixedVersion := affectedPkg.FixedVersion,
    AffectedCPEList := md.Advisory.AffectedCPEs.CPEs,
    Arches := affectedPkg.Arches }

/-- The vendor-catalog records appended for one affected-package fact: the
vendor's own record (title/description/reference URLs), then one per
bulletin (empty title/description, the bulletin's own link). -/
def catalogRecords (md : Metadata) : List VendorCVE :=
  { CVE := vendorCVE md, Title := md.Title, Description := md.Description,
    References := toReferences md.References } ::
    md.Advisory.BDUs.map (fun bdu =>
      { CVE := { ID := bdu.ID, Severity := severityFromImpact bdu.Impact },
        Title := "", Description := "", References := [bdu.Href] })

/-- The body of the `affectedPkgs` loop of `parseOVAL`: append the
vendor-catalog records for this fact and store the advisory entry (or
entries, when no canonical vendor identifier exists) into the per-file map. -/
def processFact (md : Metadata)
    (st : List (bucket × DefinitionSpecial) × List VendorCVE)
    (affectedPkg : pkg) :
    List (bucket × DefinitionSpecial) × List VendorCVE :=
  let packageName := affectedPkg.Name
  let altID := vendorID md.References
  let cveEntries := cveEntriesOf md
  let vcs := st.2 ++ catalogRecords md
  if altID ≠ "" then
    (mapInsert st.1 { packageName := packageName, vulnerabilityID := altID }
      { Entry := mkEntry md affectedPkg }, vcs)
  else
    (cveEntries.foldl (fun m cve =>
      mapInsert m { packageName := packageName, vulnerabilityID := cve.ID }
        { Entry :=
          { CVEs := [{ ID := "", Severity := cve.Severity }],
            FixedVersion := affectedPkg.FixedVersion,
            AffectedCPEList := md.Advisory.AffectedCPEs.CPEs,
            Arches := affectedPkg.Arches } }) st.1, vcs)

/-- The body of the definition loop of `parseOVAL`: skip "unaffected"
definitions, otherwise process every affected-package fact. -/
def processDefinition (tests : List (String × resolvedTest))
    (st : List (bucket × DefinitionSpecial) × List VendorCVE)
    (d : Definition) :
    List (bucket × DefinitionSpecial) × List VendorCVE :=
  if stringsContains d.ID "unaffected" then st
  else (walkCriterion d.Criteria tests).foldl (processFact d.Metadata) st

/-- The pure core of `parseOVAL`: fold the definition loop over a fresh
per-file `defs` map, threading the package-level `vendorCVEs` slice. -/
def parseOVALDefs (definitions : List Definition)
    (tests : List (String × resolvedTest)) (vcs : List VendorCVE) :
    List (bucket × DefinitionSpecial) × List VendorCVE :=
  definitions.foldl (processDefinition tests) ([], vcs)

/-! ## Advisory merger (`mergeAdvisories`) -/

/-- Modelled from the spec: `ustrings.Merge` from `pkg/utils/strings` is not
under `src/`; per the design document it is the order-preserving,
duplicate-free union of two string lists. -/
def Merge (a b : List String) : List String :=
  (a ++ b).foldl (fun acc s => if s ∈ acc then acc else acc ++ [s]) []

/-- The per-bucket body of `mergeAdvisories`: update every existing entry
with equal `(FixedVersion, Arches)` by unioning platform lists, and append
the incoming entry when none matched. -/
def mergeEntry (old : AdvisorySpecial) (e : Entry) : AdvisorySpecial :=
  let step := old.Entries.foldl
    (fun (acc : List Entry × Bool) oe =>
      if oe.FixedVersion = e.FixedVersion ∧ oe.Arches = e.Arches then
        (acc.1 ++ [{ oe with AffectedCPEList := Merge oe.AffectedCPEList e.AffectedCPEList }],
         true)
      else (acc.1 ++ [oe], acc.2))
    ([], false)
  if step.2 then { Entries := step.1 } else { Entries := step.1 ++ [e] }

/-- `mergeAdvisories`: fold a per-file `defs` map into the running advisory
map. -/
def mergeAdvisories (advisories : List (bucket × AdvisorySpecial))
    (defs : List (bucket × DefinitionSpecial)) :
    List (bucket × AdvisorySpecial) :=
  defs.foldl (fun adv p =>
    match alookup p.1 adv with
    | some old => mapInsert adv p.1 (mergeEntry old p.2.Entry)
    | none => mapInsert adv p.1 { Entries := [p.2.Entry] }) advisories

/-! ## Query (`Get`) -/

/-- The advisory built by `Get` for one vulnerability record of one
matching entry: severity, fixed version and arches come from the record and
the entry; then either the bucket key becomes the primary ID (`CVE-`
prefix), or the record's embedded ID does and the bucket key goes into the
vendor-IDs field. -/
def getRecord (vulnID : String) (entry : Entry) (cve : CVEEntry) :
    TypesAdvisory :=
  let advisory : TypesAdvisory :=
    { VulnerabilityID := "", VendorIDs := [],
      Severity := cve.Severity, FixedVersion := entry.FixedVersion,
      Arches := entry.Arches }
  if strHasPre vulnID "CVE-" then { advisory with VulnerabilityID := vulnID }
  else { advisory with VulnerabilityID := cve.ID, VendorIDs := [vulnID] }

/-- The pure core of `Get`: the stored advisories for the queried package
are given as `(bucket key, decoded advisory)` pairs. -/
def GetAdvisories (rawAdvisories : List (String × AdvisorySpecial))
    (cpe : String) : List TypesAdvisory :=
  rawAdvisories.foldl (fun advisories pr =>
    pr.2.Entries.foldl (fun advisories entry =>
      if contains entry.AffectedCPEList cpe = false then advisories
      else
        entry.CVEs.foldl (fun advisories cve =>
          advisories ++ [getRecord pr.1 entry cve]) advisories) advisories) []

/-! ## Update run (in-memory state)

`Update` allocates a fresh local `advisories` map but reads and appends the
package-level `vendorCVEs` slice, which is never reset; the run is modelled
as a function of that slice's prior contents.  Each input file contributes
its resolved test table and definition list. -/

/-- One `Update` run over the given files, starting from the contents the
package-level `vendorCVEs` slice had before the run.  Returns the merged
advisory map and the final `vendorCVEs` contents — exactly what
`save`/`putVendorCVEs` persist. -/
def updateRun
    (files : List (List (String × resolvedTest) × List Definition))
    (vcs0 : List VendorCVE) :
    List (bucket × AdvisorySpecial) × List VendorCVE :=
  files.foldl (fun acc f =>
    let r := parseOVALDefs f.2 f.1 acc.2
    (mergeAdvisories acc.1 r.1, r.2)) ([], vcs0)

/-! ## General helper lemmas -/

instance {ε α : Type} [DecidableEq ε] [DecidableEq α] : DecidableEq (Except ε α) :=
  fun x y =>
    match x, y with
    | .ok a, .ok b =>
      if h : a = b then isTrue (by rw [h])
      else isFalse (by intro he; cases he; exact h rfl)
    | .error a, .error b =>
      if h : a = b then isTrue (by rw [h])
      else isFalse (by intro he; cases he; exact h rfl)
    | .ok _, .error _ => isFalse (by intro h; cases h)
    | .error _, .ok _ => isFalse (by intro h; cases h)

/-- A left fold that overwrites its accumulator at every element satisfying
`p` computes the image of the last such element: last-match-wins scans are
`find?` on the reversed list. -/
theorem foldl_if_lastmatch {α β : Type} (p : α → Bool) (f : α → β) :
    ∀ (l : List α) (acc : β),
      l.foldl (fun id r => if p r then f r else id) acc =
        ((l.reverse.find? p).map f).getD acc := by
  intro l
  induction l with
  | nil => intro acc; rfl
  | cons x xs ih =>
    intro acc
    simp only [List.foldl_cons, List.reverse_cons, List.find?_append, ih]
    cases hxs : xs.reverse.find? p with
    | some r => simp [Option.or]
    | none =>
      simp only [Option.or]
      cases hx : p x <;> simp [List.find?, hx]

/-! ## C1: canonical vendor identifier (`vendorID`) -/

/-- C1 counterexample input: two references whose source tag is `ALTPU`. -/
def c1refs : List Reference :=
  [{ RefID := "ALT-PU-2024-0001", RefURL := "u1", Source := "ALTPU" },
   { RefID := "ALT-PU-2024-0002", RefURL := "u2", Source := "ALTPU" }]

/-- C1 is false as stated: with two `ALTPU` references, `vendorID` returns
the refID of the FIRST one, not the last. -/
theorem C1_counterexample :
    (c1refs.filter (fun r => r.Source == "ALTPU")).length = 2 ∧
    c1refs.getLast?.map Reference.RefID = some "ALT-PU-2024-0002" ∧
    vendorID c1refs = "ALT-PU-2024-0001" ∧
    "ALT-PU-2024-0001" ≠ "ALT-PU-2024-0002" := by
  decide

/-- C1 (amended): `vendorID` is the refID of the FIRST reference in list
order whose source tag is `ALTPU`, and the empty string when no reference
qualifies. -/
theorem C1_amended_vendorID_first (refs : List Reference) :
    vendorID refs =
      ((refs.find? (fun r => r.Source == "ALTPU")).map Reference.RefID).getD "" := by
  induction refs with
  | nil => rfl
  | cons ref rest ih =>
    by_cases h : ref.Source = "ALTPU"
    · simp [vendorID, h, List.find?_cons]
    · simp [vendorID, h, List.find?_cons, ih]

/-! ## C2: the vendor's own vulnerability record (`vendorCVE`) -/

/-- C2 counterexample input: a definition metadata whose references hold an
`ALTPU` patch-update reference followed by a later ALT-branded reference. -/
def c2metadata : Metadata :=
  { Title := "t", Description := "d",
    References :=
      [{ RefID := "ALT-PU-2024-0001", RefURL := "u1", Source := "ALTPU" },
       { RefID := "ALT-BDU-9", RefURL := "u2", Source := "BDU" }],
    Advisory := { Severity := "High", BDUs := [], CVEs := [],
                  AffectedCPEs := { CPEs := [] } } }

/-- C2 is false as stated: a canonical vendor identifier exists
(`ALT-PU-2024-0001`), yet `vendorCVE` sets the record's identifier to the
LAST ALT-branded refID (`ALT-BDU-9`), not to the canonical one. -/
theorem C2_counterexample :
    vendorID c2metadata.References = "ALT-PU-2024-0001" ∧
    vendorID c2metadata.References ≠ "" ∧
    (vendorCVE c2metadata).ID = "ALT-BDU-9" ∧
    "ALT-BDU-9" ≠ "ALT-PU-2024-0001" := by
  decide

/-- C2 (amended): the identifier of the record produced by `vendorCVE` is
the refID of the LAST reference in the definition's reference list whose
refID contains `"ALT"` (independently of the canonical vendor identifier),
and the empty string when no reference is ALT-branded. -/
theorem C2_amended_vendorCVE_last_ALT (metadata : Metadata) :
    (vendorCVE metadata).ID =
      ((metadata.References.reverse.find?
          (fun r => stringsContains r.RefID "ALT")).map Reference.RefID).getD "" := by
  show metadata.References.foldl
      (fun id r => if stringsContains r.RefID "ALT" then r.RefID else id) "" = _
  exact foldl_if_lastmatch (fun r => stringsContains r.RefID "ALT")
    (fun r => r.RefID) metadata.References ""

/-! ## C8: reference-resolution failure (`followTestRefs`) -/

/-- `resolveTestsAux` fails exactly when some test of the file fails to
resolve (fail-fast over the whole file). -/
theorem resolveTestsAux_error_iff (objects : List (String × RPMInfoObject))
    (states : List (String × RPMInfoState)) :
    ∀ (tests : List RPMInfoTest) (acc : List (String × resolvedTest)),
      (∃ e, resolveTestsAux objects states tests acc = .error e) ↔
        ∃ t ∈ tests, ∃ e, followTestRefs t objects states = .error e := by
  intro tests
  induction tests with
  | nil => intro acc; simp [resolveTestsAux]
  | cons test rest ih =>
    intro acc
    cases h : followTestRefs test objects states with
    | error e =>
      simp only [resolveTestsAux, h]
      constructor
      · intro _; exact ⟨test, by simp, e, h⟩
      · intro _; exact ⟨e, rfl⟩
    | ok t =>
      simp only [resolveTestsAux, h, ih]
      constructor
      · intro ⟨u, hu, hue⟩; exact ⟨u, by simp [hu], hue⟩
      · intro ⟨u, hu, e2, hue⟩
        rcases List.mem_cons.mp hu with rfl | hu2
        · rw [h] at hue; cases hue
        · exact ⟨u, hu2, e2, hue⟩

/-- C8 (amended): `followTestRefs` fails with a `ReferenceError` naming the
missing reference ID and the owning test ID if and only if the test's
object reference is non-empty and absent from the object table, or its
object reference is non-empty and resolvable while its state reference is
non-empty and absent from the state table; a test with an empty object
reference yields the all-empty fact (regardless of its state reference),
and a failure of any test aborts the whole file in `resolveTests`. -/
theorem C8_amended_followTestRefs (test : RPMInfoTest)
    (objects : List (String × RPMInfoObject))
    (states : List (String × RPMInfoState)) :
    ((∃ e, followTestRefs test objects states = .error e) ↔
      (test.Object.ObjectRef ≠ "" ∧ alookup test.Object.ObjectRef objects = none) ∨
      (test.Object.ObjectRef ≠ "" ∧ (alookup test.Object.ObjectRef objects).isSome ∧
        test.State.StateRef ≠ "" ∧ alookup test.State.StateRef states = none)) ∧
    (test.Object.ObjectRef ≠ "" → alookup test.Object.ObjectRef objects = none →
      followTestRefs test objects states =
        .error (.objectRefMissing test.Object.ObjectRef test.ID)) ∧
    (∀ obj, test.Object.ObjectRef ≠ "" →
      alookup test.Object.ObjectRef objects = some obj →
      test.State.StateRef ≠ "" → alookup test.State.StateRef states = none →
      followTestRefs test objects states =
        .error (.stateRefMissing test.State.StateRef test.ID)) ∧
    (test.Object.ObjectRef = "" →
      followTestRefs test objects states =
        .ok { Name := "", FixedVersion := "", Arch := "" }) ∧
    (∀ tests : List RPMInfoTest,
      (∃ e, resolveTests tests objects states = .error e) ↔
        ∃ t ∈ tests, ∃ e, followTestRefs t objects states = .error e) := by
  refine ⟨?_, ?_, ?_, ?_, ?_⟩
  · by_cases hobj : test.Object.ObjectRef = ""
    · simp [followTestRefs, hobj]
    · cases hO : alookup test.Object.ObjectRef objects with
      | none => simp [followTestRefs, hobj, hO]
      | some obj =>
        by_cases hst : test.State.StateRef = ""
        · simp [followTestRefs, hobj, hO, hst]
        · cases hS : alookup test.State.StateRef states with
          | none => simp [followTestRefs, hobj, hO, hst, hS]
          | some state => simp [followTestRefs, hobj, hO, hst, hS]
  · intro hobj hO
    simp [followTestRefs, hobj, hO]
  · intro obj hobj hO hst hS
    simp [followTestRefs, hobj, hO, hst, hS]
  · intro hobj
    simp [followTestRefs, hobj]
  · intro tests
    exact resolveTestsAux_error_iff objects states tests []

/-- C8 counterexample input: a test with an empty object reference but a
non-empty, dangling state reference. -/
def c8test : RPMInfoTest :=
  { ID := "test:1", Object := { ObjectRef := "" },
    State := { StateRef := "state:1" } }

/-- C8 is false as stated: `c8test` has a non-empty state reference absent
from the (empty) state table, so the claimed equivalence demands a
`ReferenceError`, yet resolution succeeds with the all-empty fact because
the empty object reference returns early. -/
theorem C8_counterexample :
    c8test.State.StateRef ≠ "" ∧
    alookup c8test.State.StateRef ([] : List (String × RPMInfoState)) = none ∧
    followTestRefs c8test [] [] = .ok { Name := "", FixedVersion := "", Arch := "" } ∧
    ¬(∃ e, followTestRefs c8test [] [] = .error e) := by
  refine ⟨by decide, by decide, by decide, ?_⟩
  rintro ⟨e, he⟩
  rw [show followTestRefs c8test [] [] =
      .ok { Name := "", FixedVersion := "", Arch := "" } from by decide] at he
  cases he

/-- C8 witness input: a test whose non-empty object reference is missing. -/
def c8wtest : RPMInfoTest :=
  { ID := "test:9", Object := { ObjectRef := "obj:1" },
    State := { StateRef := "" } }

/-- Witness: the amended C8 theorem applied at a concrete test with a
dangling object reference. -/
theorem C8_witness :
    followTestRefs c8wtest [] [] =
      .error (.objectRefMissing "obj:1" "test:9") :=
  (C8_amended_followTestRefs c8wtest [] []).2.1 (by decide) (by decide)

/-! ## C9: criteria-tree walk (`walkCriterion`) -/

/-- The child loop of `walkCriterion` appends every child's results in
child order (the non-emptiness test in the source is a no-op). -/
theorem walkCriterionList_eq_flatten (l : List Criteria)
    (tests : List (String × resolvedTest)) :
    walkCriterionList l tests =
      (l.map (fun c => walkCriterion c tests)).flatten := by
  induction l with
  | nil => rfl
  | cons c cs ih =>
    simp only [walkCriterionList, ih, List.map_cons, List.flatten_cons]
    by_cases h : (walkCriterion c tests).length ≠ 0
    · simp [h]
    · simp only [ne_eq, not_not] at h
      rw [List.length_eq_zero.mp h]
      simp

/-- C9: `walkCriterion` is the in-order union over all reachable leaves —
the node's own resolvable test refs first (dangling refs skipped silently),
then each child's results in child order; each emitted fact splits a
non-empty arch pattern on the pipe character and uses the empty
architecture list otherwise. -/
theorem C9_walkCriterion_union (crits : List Criterion) (subs : List Criteria)
    (tests : List (String × resolvedTest)) :
    walkCriterion (.mk crits subs) tests =
      crits.filterMap (fun c =>
        (alookup c.TestRef tests).map (fun t =>
          { Name := t.Name, FixedVersion := t.FixedVersion,
            Arches := if t.Arch = "" then [] else splitPipe t.Arch })) ++
      (subs.map (fun c => walkCriterion c tests)).flatten := by
  cases subs with
  | nil => simp [walkCriterion]
  | cons c cs =>
    simp only [walkCriterion, List.isEmpty_cons]
    rw [walkCriterionList_eq_flatten]
    simp

/-! ## Lookup lemmas for `mapInsert` -/

theorem alookup_append_none {κ α : Type} [DecidableEq κ] (k : κ) :
    ∀ (l1 l2 : List (κ × α)), alookup k l1 = none →
      alookup k (l1 ++ l2) = alookup k l2 := by
  intro l1
  induction l1 with
  | nil => intro l2 _; rfl
  | cons p ps ih =>
    intro l2 h
    by_cases hp : p.1 = k
    · simp [alookup, hp] at h
    · simp only [alookup, hp, if_false] at h
      simp only [List.cons_append, alookup, hp, if_false]
      exact ih l2 h

theorem alookup_append_some {κ α : Type} [DecidableEq κ] (k : κ) (v : α) :
    ∀ (l1 l2 : List (κ × α)), alookup k l1 = some v →
      alookup k (l1 ++ l2) = some v := by
  intro l1
  induction l1 with
  | nil => intro l2 h; cases h
  | cons p ps ih =>
    intro l2 h
    by_cases hp : p.1 = k
    · simp [alookup, hp] at h
      simp [alookup, hp, h]
    · simp only [alookup, hp, if_false] at h
      simp only [List.cons_append, alookup, hp, if_false]
      exact ih l2 h

theorem alookup_map_overwrite_self {κ α : Type} [DecidableEq κ] (k : κ) (v : α) :
    ∀ (m : List (κ × α)) (w : α), alookup k m = some w →
      alookup k (m.map (fun p => if p.1 = k then (k, v) else p)) = some v := by
  intro m
  induction m with
  | nil => intro w h; cases h
  | cons p ps ih =>
    intro w h
    by_cases hp : p.1 = k
    · simp [alookup, hp, List.map_cons]
    · simp only [alookup, hp, if_false] at h
      simp only [List.map_cons, if_neg hp, alookup, hp, if_false]
      exact ih w h

theorem alookup_map_overwrite_ne {κ α : Type} [DecidableEq κ] (k k' : κ) (v : α)
    (hne : k' ≠ k) :
    ∀ (m : List (κ × α)),
      alookup k' (m.map (fun p => if p.1 = k then (k, v) else p)) = alookup k' m := by
  intro m
  induction m with
  | nil => rfl
  | cons p ps ih =>
    by_cases hp : p.1 = k
    · have h1 : ¬((k, v).1 = k') := fun h => hne h.symm
      have h2 : ¬(p.1 = k') := by rw [hp]; intro h; exact hne h.symm
      simp only [List.map_cons, if_pos hp, alookup, h1, h2, if_false, ih]
    · simp only [List.map_cons, if_neg hp, alookup, ih]

theorem alookup_mapInsert_self {κ α : Type} [DecidableEq κ]
    (m : List (κ × α)) (k : κ) (v : α) :
    alookup k (mapInsert m k v) = some v := by
  cases h : alookup k m with
  | none =>
    simp only [mapInsert, h]
    rw [alookup_append_none k m _ h]
    simp [alookup]
  | some w =>
    simp only [mapInsert, h]
    exact alookup_map_overwrite_self k v m w h

theorem alookup_mapInsert_ne {κ α : Type} [DecidableEq κ]
    (m : List (κ × α)) (k k' : κ) (v : α) (hne : k' ≠ k) :
    alookup k' (mapInsert m k v) = alookup k' m := by
  cases h : alookup k m with
  | none =>
    simp only [mapInsert, h]
    cases h2 : alookup k' m with
    | none =>
      rw [alookup_append_none k' m _ h2]
      simp only [alookup]
      rw [if_neg (show ¬((k, v).1 = k') from fun h3 => hne h3.symm)]
    | some w => exact alookup_append_some k' w m _ h2
  | some w =>
    simp only [mapInsert, h]
    exact alookup_map_overwrite_ne k k' v hne m

/-- A fold of Go map assignments resolves a key to the value of the LAST
element inserted at that key, and falls back to the initial map. -/
theorem alookup_foldl_mapInsert {κ α β : Type} [DecidableEq κ]
    (key : β → κ) (val : β → α) (k : κ) :
    ∀ (l : List β) (m : List (κ × α)),
      alookup k (l.foldl (fun acc b => mapInsert acc (key b) (val b)) m) =
        ((l.reverse.find? (fun b => decide (key b = k))).map
          (fun b => some (val b))).getD (alookup k m) := by
  intro l
  induction l with
  | nil => intro m; rfl
  | cons b bs ih =>
    intro m
    simp only [List.foldl_cons, List.reverse_cons, List.find?_append, ih]
    cases hbs : bs.reverse.find? (fun b => decide (key b = k)) with
    | some r => simp [Option.or]
    | none =>
      simp only [Option.or]
      by_cases hb : key b = k
      · have hfind : List.find? (fun b0 => decide (key b0 = k)) [b] = some b := by
          simp [hb]
        rw [hfind]
        show alookup k (mapInsert m (key b) (val b)) = some (val b)
        rw [hb]
        exact alookup_mapInsert_self m k (val b)
      · have hfind : List.find? (fun b0 => decide (key b0 = k)) [b] = none := by
          simp [hb]
        rw [hfind]
        show alookup k (mapInsert m (key b) (val b)) = alookup k m
        exact alookup_mapInsert_ne m (key b) k (val b) (fun h => hb h.symm)

/-! ## C3: vendor-catalog accumulation (`parseOVAL` definition loop) -/

/-- Each affected-package fact appends the definition's vendor-catalog
records (vendor record plus one per bulletin) to the accumulator. -/
theorem processFact_vcs (md : Metadata)
    (st : List (bucket × DefinitionSpecial) × List VendorCVE) (p : pkg) :
    (processFact md st p).2 = st.2 ++ catalogRecords md := by
  simp only [processFact]
  split <;> rfl

/-- The fact loop appends one copy of the catalog records per fact. -/
theorem foldl_processFact_vcs (md : Metadata) :
    ∀ (facts : List pkg)
      (st : List (bucket × DefinitionSpecial) × List VendorCVE),
      (facts.foldl (processFact md) st).2 =
        st.2 ++ (List.replicate facts.length (catalogRecords md)).flatten := by
  intro facts
  induction facts with
  | nil => intro st; simp
  | cons p ps ih =>
    intro st
    rw [List.foldl_cons, ih, processFact_vcs]
    simp [List.replicate_succ, List.append_assoc]

/-- C3 counterexample input: a per-file fact table with two resolvable
tests. -/
def c3tests : List (String × resolvedTest) :=
  [("t1", { Name := "libfoo", FixedVersion := "1.0-1", Arch := "" }),
   ("t2", { Name := "libbar", FixedVersion := "2.0-1", Arch := "" })]

/-- C3 counterexample input: a processed definition with one `ALTPU`
reference, no bulletins, and a criteria tree yielding two facts. -/
def c3def : Definition :=
  { ID := "oval:org.altlinux.errata:def:1",
    Metadata :=
      { Title := "T", Description := "D",
        References :=
          [{ RefID := "ALT-PU-2024-0001", RefURL := "u", Source := "ALTPU" }],
        Advisory := { Severity := "High", BDUs := [], CVEs := [],
                      AffectedCPEs := { CPEs := ["cpe:/o:alt:spworkstation:10"] } } },
    Criteria := .mk [{ TestRef := "t1" }, { TestRef := "t2" }] [] }

/-- C3 is false as stated: a processed definition with no bulletins should
append exactly one vendor-catalog record independent of its fact count, yet
with two affected-package facts the accumulator (started empty) gains TWO
records. -/
theorem C3_counterexample :
    stringsContains c3def.ID "unaffected" = false ∧
    c3def.Metadata.Advisory.BDUs = [] ∧
    (walkCriterion c3def.Criteria c3tests).length = 2 ∧
    ((processDefinition c3tests ([], []) c3def).2).length = 2 := by
  decide

/-- C3 (amended): a definition skipped as unaffected appends nothing; a
processed definition appends, PER affected-package fact, one vendor-catalog
record for the vendor's own entry (title, description, reference URLs) plus
one record per bulletin (empty title/description, the bulletin's link), so
a definition yielding k facts appends k copies of that record block and one
yielding no facts appends none; plain CVE cross-references never append a
record. -/
theorem C3_amended_catalog_per_fact (tests : List (String × resolvedTest))
    (st : List (bucket × DefinitionSpecial) × List VendorCVE)
    (d : Definition) :
    (stringsContains d.ID "unaffected" = true → processDefinition tests st d = st) ∧
    (stringsContains d.ID "unaffected" = false →
      (processDefinition tests st d).2 =
        st.2 ++ (List.replicate (walkCriterion d.Criteria tests).length
          (catalogRecords d.Metadata)).flatten) := by
  constructor
  · intro h; simp [processDefinition, h]
  · intro h
    simp only [processDefinition, h, Bool.false_eq_true, if_false]
    exact foldl_processFact_vcs d.Metadata (walkCriterion d.Criteria tests) st

/-- Witness: the amended C3 theorem applied to the concrete two-fact
definition. -/
theorem C3_witness :
    (processDefinition c3tests ([], []) c3def).2 =
      ([] : List VendorCVE) ++
        (List.replicate (walkCriterion c3def.Criteria c3tests).length
          (catalogRecords c3def.Metadata)).flatten :=
  (C3_amended_catalog_per_fact c3tests ([], []) c3def).2 (by decide)

/-! ## C10: per-file bucket map (`parseOVAL` with a canonical vendor ID) -/

/-- With a canonical vendor identifier, each fact stores its entry under
`(packageName, vendorID)` by Go map assignment. -/
theorem processFact_defs_altID (md : Metadata)
    (h : vendorID md.References ≠ "")
    (st : List (bucket × DefinitionSpecial) × List VendorCVE) (p : pkg) :
    (processFact md st p).1 =
      mapInsert st.1
        { packageName := p.Name, vulnerabilityID := vendorID md.References }
        { Entry := mkEntry md p } := by
  simp [processFact, h]

/-- The fact loop's bucket-map component is a fold of Go map assignments. -/
theorem foldl_processFact_defs (md : Metadata)
    (h : vendorID md.References ≠ "") :
    ∀ (facts : List pkg)
      (st : List (bucket × DefinitionSpecial) × List VendorCVE),
      (facts.foldl (processFact md) st).1 =
        facts.foldl (fun m p =>
          mapInsert m
            { packageName := p.Name, vulnerabilityID := vendorID md.References }
            { Entry := mkEntry md p }) st.1 := by
  intro facts
  induction facts with
  | nil => intro st; rfl
  | cons p ps ih =>
    intro st
    rw [List.foldl_cons, ih, List.foldl_cons, processFact_defs_altID md h]

/-- C10 counterexample input: two resolvable tests for the SAME package
with different fixed versions. -/
def c10tests : List (String × resolvedTest) :=
  [("t1", { Name := "libfoo", FixedVersion := "1.0-1", Arch := "" }),
   ("t2", { Name := "libfoo", FixedVersion := "2.0-1", Arch := "" })]

/-- C10 counterexample input: a definition with a canonical vendor
identifier whose criteria tree yields both facts. -/
def c10def : Definition :=
  { ID := "oval:org.altlinux.errata:def:42",
    Metadata :=
      { Title := "T", Description := "D",
        References :=
          [{ RefID := "ALT-PU-2024-0042", RefURL := "u", Source := "ALTPU" }],
        Advisory := { Severity := "Low", BDUs := [], CVEs := [],
                      AffectedCPEs := { CPEs := ["cpe:/o:alt:workstation:10"] } } },
    Criteria := .mk [{ TestRef := "t1" }, { TestRef := "t2" }] [] }

/-- C10 is false as stated: both facts map to the bucket
`(libfoo, ALT-PU-2024-0042)`, yet the per-file result handed to the merger
holds a single entry — the later fact's fixed version `2.0-1`; the earlier
entry with `1.0-1` was silently replaced, not preserved. -/
theorem C10_counterexample :
    (walkCriterion c10def.Criteria c10tests).length = 2 ∧
    vendorID c10def.Metadata.References = "ALT-PU-2024-0042" ∧
    (processDefinition c10tests ([], []) c10def).1 =
      [({ packageName := "libfoo", vulnerabilityID := "ALT-PU-2024-0042" },
        { Entry :=
          { CVEs := cveEntriesOf c10def.Metadata, FixedVersion := "2.0-1",
            AffectedCPEList := ["cpe:/o:alt:workstation:10"],
            Arches := [] } })] := by
  decide

/-- C10 (amended): for every affected-package fact of a processed
definition with a canonical vendor identifier, one entry is assigned under
bucket `(packageName, vendorID)` in the per-file map; but the assignment is
a Go map write, so when several facts (or definitions) of the same file hit
the same bucket key the LAST assignment wins — the bucket resolves to the
entry of the last fact with that package name, and earlier entries are
replaced rather than preserved. -/
theorem C10_amended_last_assignment_wins (tests : List (String × resolvedTest))
    (d : Definition) (defs : List (bucket × DefinitionSpecial))
    (vcs : List VendorCVE) (nm : String)
    (hskip : stringsContains d.ID "unaffected" = false)
    (haltID : vendorID d.Metadata.References ≠ "") :
    alookup { packageName := nm, vulnerabilityID := vendorID d.Metadata.References }
        (processDefinition tests (defs, vcs) d).1 =
      (((walkCriterion d.Criteria tests).reverse.find? (fun p =>
          decide (({ packageName := p.Name,
                     vulnerabilityID := vendorID d.Metadata.References } : bucket) =
            { packageName := nm,
              vulnerabilityID := vendorID d.Metadata.References }))).map
        (fun p => some ({ Entry := mkEntry d.Metadata p } : DefinitionSpecial))).getD
        (alookup { packageName := nm, vulnerabilityID := vendorID d.Metadata.References }
          defs) := by
  simp only [processDefinition, hskip, Bool.false_eq_true, if_false]
  rw [foldl_processFact_defs d.Metadata haltID]
  exact alookup_foldl_mapInsert
    (fun p : pkg =>
      ({ packageName := p.Name,
         vulnerabilityID := vendorID d.Metadata.References } : bucket))
    (fun p : pkg => ({ Entry := mkEntry d.Metadata p } : DefinitionSpecial))
    { packageName := nm, vulnerabilityID := vendorID d.Metadata.References }
    (walkCriterion d.Criteria tests) defs

/-- Witness: the amended C10 theorem applied to the concrete two-fact
definition; the bucket resolves to the later fact's entry. -/
theorem C10_witness :
    alookup { packageName := "libfoo",
              vulnerabilityID := vendorID c10def.Metadata.References }
        (processDefinition c10tests ([], []) c10def).1 =
      (((walkCriterion c10def.Criteria c10tests).reverse.find? (fun p =>
          decide (({ packageName := p.Name,
                     vulnerabilityID := vendorID c10def.Metadata.References } : bucket) =
            { packageName := "libfoo",
              vulnerabilityID := vendorID c10def.Metadata.References }))).map
        (fun p => some ({ Entry := mkEntry c10def.Metadata p } : DefinitionSpecial))).getD
        (alookup ({ packageName := "libfoo",
                    vulnerabilityID := vendorID c10def.Metadata.References } : bucket)
          ([] : List (bucket × DefinitionSpecial))) :=
  C10_amended_last_assignment_wins c10tests c10def [] [] "libfoo"
    (by decide) (by decide)

/-! ## C4: the vendor-catalog accumulator across `Update` runs -/

/-- C4 failing input: the resolved test table of the first run's single
file. -/
def c4tests : List (String × resolvedTest) :=
  [("t1", { Name := "libfoo", FixedVersion := "1.0-1", Arch := "" })]

/-- C4 failing input: one definition that contributes a vendor-catalog
record during the first run. -/
def c4def : Definition :=
  { ID := "oval:org.altlinux.errata:def:7",
    Metadata :=
      { Title := "T", Description := "D",
        References :=
          [{ RefID := "ALT-PU-2024-0007", RefURL := "u", Source := "ALTPU" }],
        Advisory := { Severity := "Low", BDUs := [], CVEs := [],
                      AffectedCPEs := { CPEs := [] } } },
    Criteria := .mk [{ TestRef := "t1" }] [] }

/-- C4 names a code bug: `vendorCVEs` is a package-level slice that
`Update` reads and appends but never clears, so a second run in the same
process — here one with NO input files at all — still persists every
record accumulated by the first run, contradicting the required fresh
(empty) accumulator per run. -/
theorem C4_vendorCVEs_not_reset :
    (updateRun [(c4tests, [c4def])] []).2 ≠ [] ∧
    (updateRun [] ((updateRun [(c4tests, [c4def])] []).2)).2 =
      (updateRun [(c4tests, [c4def])] []).2 := by
  decide

/-! ## C5: query results (`Get`) -/

theorem foldl_append_map {α β : Type} (g : α → β) :
    ∀ (l : List α) (acc : List β),
      l.foldl (fun a x => a ++ [g x]) acc = acc ++ l.map g := by
  intro l
  induction l with
  | nil => intro acc; simp
  | cons x xs ih =>
    intro acc
    rw [List.foldl_cons, ih]
    simp [List.append_assoc]

theorem GetAdvisories_entries_foldl (vulnID : String) (cpe : String) :
    ∀ (entries : List Entry) (acc : List TypesAdvisory),
      entries.foldl (fun advisories entry =>
        if contains entry.AffectedCPEList cpe = false then advisories
        else entry.CVEs.foldl (fun advisories cve =>
          advisories ++ [getRecord vulnID entry cve]) advisories) acc =
      acc ++ entries.flatMap (fun entry =>
        if contains entry.AffectedCPEList cpe = false then []
        else entry.CVEs.map (getRecord vulnID entry)) := by
  intro entries
  induction entries with
  | nil => intro acc; simp
  | cons e es ih =>
    intro acc
    rw [List.foldl_cons]
    by_cases h : contains e.AffectedCPEList cpe = false
    · rw [if_pos h, ih]
      simp [List.flatMap_cons, h]
    · rw [if_neg h, foldl_append_map, ih]
      simp only [List.flatMap_cons, if_neg h]
      simp [List.append_assoc]

theorem GetAdvisories_flatMap (cpe : String) :
    ∀ (raw : List (String × AdvisorySpecial)) (acc : List TypesAdvisory),
      raw.foldl (fun advisories pr =>
        pr.2.Entries.foldl (fun advisories entry =>
          if contains entry.AffectedCPEList cpe = false then advisories
          else entry.CVEs.foldl (fun advisories cve =>
            advisories ++ [getRecord pr.1 entry cve]) advisories) advisories) acc =
      acc ++ raw.flatMap (fun pr =>
        pr.2.Entries.flatMap (fun entry =>
          if contains entry.AffectedCPEList cpe = false then []
          else entry.CVEs.map (getRecord pr.1 entry))) := by
  intro raw
  induction raw with
  | nil => intro acc; simp
  | cons pr rest ih =>
    intro acc
    rw [List.foldl_cons, GetAdvisories_entries_foldl, ih]
    simp [List.append_assoc]

/-- C5 counterexample input: a stored advisory under a bulletin bucket key,
holding the entry shape the builder stores for non-vendor buckets (a
single record with cleared identifier). -/
def c5adv : AdvisorySpecial :=
  { Entries := [{ CVEs := [{ ID := "", Severity := .High }],
                  FixedVersion := "1.0-1",
                  AffectedCPEList := ["cpe:/o:alt:workstation:10"],
                  Arches := [] }] }

/-- C5 is false as stated: for the bulletin bucket key `BDU:2024-00001`
(not the canonical vendor identifier), the claim demands the bucket key as
the primary vulnerability ID, but `Get` branches on the `CVE-` prefix, so
the result's primary ID is the record's (empty) embedded identifier and
the bulletin key is shunted into the vendor-IDs field. -/
theorem C5_counterexample :
    strHasPre "BDU:2024-00001" "CVE-" = false ∧
    GetAdvisories [("BDU:2024-00001", c5adv)] "cpe:/o:alt:workstation:10" =
      [{ VulnerabilityID := "", VendorIDs := ["BDU:2024-00001"],
         Severity := .High, FixedVersion := "1.0-1", Arches := [] }] ∧
    "" ≠ "BDU:2024-00001" := by
  decide

/-- C5 (amended): `Get` returns one result per vulnerability record of each
stored entry whose platform list contains the queried platform; the primary
vulnerability ID is the bucket key exactly when that key starts with
`"CVE-"` (no vendor-IDs field), while for EVERY other bucket key — the
canonical vendor identifier and bulletin identifiers alike — the primary ID
is the record's embedded identifier and the bucket key is carried in the
vendor-IDs field. -/
theorem C5_amended_Get_primary_id (raw : List (String × AdvisorySpecial))
    (cpe : String) :
    (GetAdvisories raw cpe =
      raw.flatMap (fun pr =>
        pr.2.Entries.flatMap (fun entry =>
          if contains entry.AffectedCPEList cpe = false then []
          else entry.CVEs.map (getRecord pr.1 entry)))) ∧
    (∀ (vulnID : String) (entry : Entry) (cve : CVEEntry),
      strHasPre vulnID "CVE-" = true →
      getRecord vulnID entry cve =
        { VulnerabilityID := vulnID, VendorIDs := [], Severity := cve.Severity,
          FixedVersion := entry.FixedVersion, Arches := entry.Arches }) ∧
    (∀ (vulnID : String) (entry : Entry) (cve : CVEEntry),
      strHasPre vulnID "CVE-" = false →
      getRecord vulnID entry cve =
        { VulnerabilityID := cve.ID, VendorIDs := [vulnID],
          Severity := cve.Severity,
          FixedVersion := entry.FixedVersion, Arches := entry.Arches }) := by
  refine ⟨?_, ?_, ?_⟩
  · show raw.foldl _ [] = _
    rw [GetAdvisories_flatMap]
    simp
  · intro vulnID entry cve h
    simp [getRecord, h]
  · intro vulnID entry cve h
    simp [getRecord, h]

/-- Witness: the amended C5 theorem applied to a bulletin bucket key. -/
theorem C5_witness :
    getRecord "BDU:2024-00001"
        ({ CVEs := [], FixedVersion := "1.0-1",
           AffectedCPEList := [], Arches := [] } : Entry)
        ({ ID := "", Severity := .High } : CVEEntry) =
      { VulnerabilityID := "", VendorIDs := ["BDU:2024-00001"],
        Severity := .High, FixedVersion := "1.0-1", Arches := [] } :=
  (C5_amended_Get_primary_id [] "").2.2 "BDU:2024-00001"
    ({ CVEs := [], FixedVersion := "1.0-1", AffectedCPEList := [], Arches := [] } : Entry)
    ({ ID := "", Severity := .High } : CVEEntry) (by decide)

/-! ## Merge lemmas (`Merge`, `mergeEntry`, `mergeAdvisories`) -/

theorem merge_foldl_ins :
    ∀ (l acc : List String), acc.Nodup →
      (l.foldl (fun acc s => if s ∈ acc then acc else acc ++ [s]) acc).Nodup ∧
      ∀ x, x ∈ l.foldl (fun acc s => if s ∈ acc then acc else acc ++ [s]) acc ↔
        (x ∈ acc ∨ x ∈ l) := by
  intro l
  induction l with
  | nil => intro acc h; exact ⟨h, fun x => by simp⟩
  | cons s rest ih =>
    intro acc h
    rw [List.foldl_cons]
    by_cases hs : s ∈ acc
    · rw [if_pos hs]
      obtain ⟨h1, h2⟩ := ih acc h
      refine ⟨h1, fun x => ?_⟩
      rw [h2]
      constructor
      · rintro (hx | hx)
        · exact Or.inl hx
        · exact Or.inr (List.mem_cons_of_mem _ hx)
      · rintro (hx | hx)
        · exact Or.inl hx
        · rcases List.mem_cons.mp hx with rfl | hx2
          · exact Or.inl hs
          · exact Or.inr hx2
    · rw [if_neg hs]
      have hacc : (acc ++ [s]).Nodup := by
        simp [List.nodup_append, h, hs]
      obtain ⟨h1, h2⟩ := ih (acc ++ [s]) hacc
      refine ⟨h1, fun x => ?_⟩
      rw [h2, List.mem_append, List.mem_singleton, List.mem_cons]
      tauto

theorem foldl_ins_subset :
    ∀ (l acc : List String), (∀ x ∈ l, x ∈ acc) →
      l.foldl (fun acc s => if s ∈ acc then acc else acc ++ [s]) acc = acc := by
  intro l
  induction l with
  | nil => intro acc _; rfl
  | cons s rest ih =>
    intro acc h
    rw [List.foldl_cons, if_pos (h s (by simp))]
    exact ih acc (fun x hx => h x (by simp [hx]))

theorem foldl_ins_fresh :
    ∀ (l : List String), l.Nodup → ∀ (acc : List String), (∀ x ∈ l, x ∉ acc) →
      l.foldl (fun acc s => if s ∈ acc then acc else acc ++ [s]) acc = acc ++ l := by
  intro l
  induction l with
  | nil => intro _ acc _; simp
  | cons s rest ih =>
    intro hnd acc h
    rw [List.foldl_cons, if_neg (h s (by simp))]
    rw [ih (List.nodup_cons.mp hnd).2 (acc ++ [s]) ?_]
    · simp
    · intro x hx
      rw [List.mem_append, List.mem_singleton]
      rintro (hx2 | rfl)
      · exact h x (by simp [hx]) hx2
      · exact (List.nodup_cons.mp hnd).1 hx

/-- Merging a duplicate-free list with itself is the identity. -/
theorem Merge_self (xs : List String) (h : xs.Nodup) : Merge xs xs = xs := by
  unfold Merge
  rw [List.foldl_append, foldl_ins_fresh xs h [] (by simp)]
  simp only [List.nil_append]
  exact foldl_ins_subset xs xs (fun x hx => hx)

/-- The scan of `mergeEntry` maps the update over the entry list and sets
the found flag exactly when some entry matches. -/
theorem mergeEntry_foldl_spec (e : Entry) :
    ∀ (entries acc : List Entry) (flag : Bool),
      entries.foldl (fun (acc2 : List Entry × Bool) oe =>
        if oe.FixedVersion = e.FixedVersion ∧ oe.Arches = e.Arches then
          (acc2.1 ++
            [{ oe with AffectedCPEList := Merge oe.AffectedCPEList e.AffectedCPEList }],
           true)
        else (acc2.1 ++ [oe], acc2.2)) (acc, flag) =
      (acc ++ entries.map (fun oe =>
        if oe.FixedVersion = e.FixedVersion ∧ oe.Arches = e.Arches then
          { oe with AffectedCPEList := Merge oe.AffectedCPEList e.AffectedCPEList }
        else oe),
       flag || entries.any (fun oe =>
         decide (oe.FixedVersion = e.FixedVersion ∧ oe.Arches = e.Arches))) := by
  intro entries
  induction entries with
  | nil => intro acc flag; simp
  | cons oe rest ih =>
    intro acc flag
    rw [List.foldl_cons]
    by_cases h : oe.FixedVersion = e.FixedVersion ∧ oe.Arches = e.Arches
    · rw [if_pos h, ih]
      have hb : decide (oe.FixedVersion = e.FixedVersion ∧ oe.Arches = e.Arches) = true :=
        decide_eq_true h
      simp only [List.map_cons, if_pos h, List.any_cons, hb, Bool.true_or, Bool.or_true,
        List.append_assoc, List.singleton_append]
    · rw [if_neg h, ih]
      have hb : decide (oe.FixedVersion = e.FixedVersion ∧ oe.Arches = e.Arches) = false :=
        decide_eq_false h
      simp only [List.map_cons, if_neg h, List.any_cons, hb, Bool.false_or,
        List.append_assoc, List.singleton_append]

/-- When some existing entry matches the incoming `(FixedVersion, Arches)`,
`mergeEntry` keeps the entry list's shape and unions the platform lists of
every matching entry. -/
theorem mergeEntry_found (old : AdvisorySpecial) (e : Entry)
    (h : ∃ oe ∈ old.Entries,
      oe.FixedVersion = e.FixedVersion ∧ oe.Arches = e.Arches) :
    (mergeEntry old e).Entries = old.Entries.map (fun oe =>
      if oe.FixedVersion = e.FixedVersion ∧ oe.Arches = e.Arches then
        { oe with AffectedCPEList := Merge oe.AffectedCPEList e.AffectedCPEList }
      else oe) := by
  have hany : old.Entries.any (fun oe =>
      decide (oe.FixedVersion = e.FixedVersion ∧ oe.Arches = e.Arches)) = true := by
    rw [List.any_eq_true]
    obtain ⟨oe, hm, hc⟩ := h
    exact ⟨oe, hm, by simp [hc]⟩
  simp only [mergeEntry, mergeEntry_foldl_spec, hany, Bool.false_or, if_true,
    List.nil_append]

/-- When no existing entry matches, `mergeEntry` appends the incoming
entry. -/
theorem mergeEntry_notfound (old : AdvisorySpecial) (e : Entry)
    (h : ∀ oe ∈ old.Entries,
      ¬(oe.FixedVersion = e.FixedVersion ∧ oe.Arches = e.Arches)) :
    (mergeEntry old e).Entries = old.Entries ++ [e] := by
  have hany : old.Entries.any (fun oe =>
      decide (oe.FixedVersion = e.FixedVersion ∧ oe.Arches = e.Arches)) = false := by
    rw [List.any_eq_false]
    intro oe hm
    simp [h oe hm]
  have hmap : ∀ l : List Entry,
      (∀ oe ∈ l, ¬(oe.FixedVersion = e.FixedVersion ∧ oe.Arches = e.Arches)) →
      l.map (fun oe =>
        if oe.FixedVersion = e.FixedVersion ∧ oe.Arches = e.Arches then
          { oe with AffectedCPEList := Merge oe.AffectedCPEList e.AffectedCPEList }
        else oe) = l := by
    intro l
    induction l with
    | nil => intro _; rfl
    | cons oe rest ih2 =>
      intro h2
      rw [List.map_cons, if_neg (h2 oe (by simp)), ih2 (fun x hx => h2 x (by simp [hx]))]
  simp only [mergeEntry, mergeEntry_foldl_spec, hany, Bool.false_or, if_false]
  rw [hmap old.Entries h]
  simp

/-- Folding a singleton per-file map into the running map updates exactly
the existing bucket via `mergeEntry`. -/
theorem mergeAdvisories_singleton_existing (adv : List (bucket × AdvisorySpecial))
    (bkt : bucket) (old : AdvisorySpecial) (e : Entry)
    (h : alookup bkt adv = some old) :
    alookup bkt (mergeAdvisories adv [(bkt, { Entry := e })]) =
      some (mergeEntry old e) := by
  simp only [mergeAdvisories, List.foldl_cons, List.foldl_nil, h]
  exact alookup_mapInsert_self adv bkt (mergeEntry old e)

/-! ## C6: merge behavior for an existing bucket -/

/-- C6: when `mergeAdvisories` folds an entry into an existing bucket, the
bucket becomes `mergeEntry old e`; if an existing entry has the same
`(FixedVersion, Arches)` (ordered), the entry count is unchanged and the
matching entries' platform lists become the `Merge` union — which is
duplicate-free and contains exactly the members of both lists; otherwise
the incoming entry is appended; and merging an entry identical to the
bucket's single existing entry is idempotent. -/
theorem C6_merge_into_existing_bucket :
    (∀ (adv : List (bucket × AdvisorySpecial)) (bkt : bucket)
        (old : AdvisorySpecial) (e : Entry),
      alookup bkt adv = some old →
        alookup bkt (mergeAdvisories adv [(bkt, { Entry := e })]) =
          some (mergeEntry old e) ∧
        ((∃ oe ∈ old.Entries,
            oe.FixedVersion = e.FixedVersion ∧ oe.Arches = e.Arches) →
          (mergeEntry old e).Entries.length = old.Entries.length ∧
          (mergeEntry old e).Entries = old.Entries.map (fun oe =>
            if oe.FixedVersion = e.FixedVersion ∧ oe.Arches = e.Arches then
              { oe with
                AffectedCPEList := Merge oe.AffectedCPEList e.AffectedCPEList }
            else oe)) ∧
        ((∀ oe ∈ old.Entries,
            ¬(oe.FixedVersion = e.FixedVersion ∧ oe.Arches = e.Arches)) →
          (mergeEntry old e).Entries = old.Entries ++ [e])) ∧
    (∀ a b : List String,
      (Merge a b).Nodup ∧ ∀ x, x ∈ Merge a b ↔ x ∈ a ∨ x ∈ b) ∧
    (∀ (adv : List (bucket × AdvisorySpecial)) (bkt : bucket) (e : Entry),
      alookup bkt adv = some { Entries := [e] } →
      e.AffectedCPEList.Nodup →
      alookup bkt (mergeAdvisories adv [(bkt, { Entry := e })]) =
        some { Entries := [e] }) := by
  refine ⟨?_, ?_, ?_⟩
  · intro adv bkt old e h
    refine ⟨mergeAdvisories_singleton_existing adv bkt old e h, ?_, ?_⟩
    · intro hex
      rw [mergeEntry_found old e hex]
      exact ⟨by rw [List.length_map], rfl⟩
    · intro hnone
      exact mergeEntry_notfound old e hnone
  · intro a b
    obtain ⟨h1, h2⟩ := merge_foldl_ins (a ++ b) [] List.nodup_nil
    refine ⟨h1, fun x => ?_⟩
    rw [show Merge a b =
        (a ++ b).foldl (fun acc s => if s ∈ acc then acc else acc ++ [s]) []
      from rfl]
    rw [h2 x]
    simp
  · intro adv bkt e h hnd
    rw [mergeAdvisories_singleton_existing adv bkt { Entries := [e] } e h]
    have h1 : (mergeEntry { Entries := [e] } e).Entries = [e] := by
      rw [mergeEntry_found { Entries := [e] } e ⟨e, by simp, rfl, rfl⟩]
      simp only [List.map_cons, List.map_nil, if_pos (And.intro rfl rfl)]
      rw [Merge_self e.AffectedCPEList hnd]
      simp
    rw [show mergeEntry { Entries := [e] } e =
        { Entries := (mergeEntry { Entries := [e] } e).Entries } from rfl, h1]

/-- C6 witness input: the bucket key of the idempotence scenario. -/
def c6bkt : bucket :=
  { packageName := "libfoo", vulnerabilityID := "ALT-PU-2024-0001" }

/-- C6 witness input: the entry of the idempotence scenario from the design
document's test list. -/
def c6entry : Entry :=
  { CVEs := [], FixedVersion := "1.2-3",
    AffectedCPEList := ["cpe:/o:example:1"], Arches := ["x86_64"] }

/-- Witness: merging an entry identical to the bucket's existing entry
leaves the bucket with that single entry. -/
theorem C6_witness :
    alookup c6bkt (mergeAdvisories [(c6bkt, { Entries := [c6entry] })]
        [(c6bkt, { Entry := c6entry })]) = some { Entries := [c6entry] } :=
  C6_merge_into_existing_bucket.2.2 [(c6bkt, { Entries := [c6entry] })] c6bkt
    c6entry (by decide) (by decide)

/-! ## C7: the per-bucket distinctness invariant -/

/-- No two entries of one bucket share an equal `(FixedVersion, Arches)`
pair, with arch lists compared as ordered sequences. -/
def entriesDistinct (entries : List Entry) : Prop :=
  entries.Pairwise (fun x y =>
    ¬(x.FixedVersion = y.FixedVersion ∧ x.Arches = y.Arches))

/-- The distinctness invariant over every bucket of the advisory map. -/
def bucketInvariant (adv : List (bucket × AdvisorySpecial)) : Prop :=
  ∀ b a, alookup b adv = some a → entriesDistinct a.Entries

/-- `mergeEntry` preserves per-bucket distinctness. -/
theorem mergeEntry_entriesDistinct (old : AdvisorySpecial) (e : Entry)
    (h : entriesDistinct old.Entries) :
    entriesDistinct (mergeEntry old e).Entries := by
  by_cases hf : ∃ oe ∈ old.Entries,
      oe.FixedVersion = e.FixedVersion ∧ oe.Arches = e.Arches
  · rw [entriesDistinct, mergeEntry_found old e hf]
    refine List.Pairwise.map _ ?_ h
    intro a b hab hcon
    apply hab
    have hfv : ∀ x : Entry,
        ((fun oe =>
          if oe.FixedVersion = e.FixedVersion ∧ oe.Arches = e.Arches then
            { oe with AffectedCPEList := Merge oe.AffectedCPEList e.AffectedCPEList }
          else oe) x).FixedVersion = x.FixedVersion := by
      intro x
      by_cases hx : x.FixedVersion = e.FixedVersion ∧ x.Arches = e.Arches
      · simp [hx]
      · simp [hx]
    have har : ∀ x : Entry,
        ((fun oe =>
          if oe.FixedVersion = e.FixedVersion ∧ oe.Arches = e.Arches then
            { oe with AffectedCPEList := Merge oe.AffectedCPEList e.AffectedCPEList }
          else oe) x).Arches = x.Arches := by
      intro x
      by_cases hx : x.FixedVersion = e.FixedVersion ∧ x.Arches = e.Arches
      · simp [hx]
      · simp [hx]
    exact ⟨(hfv a).symm.trans (hcon.1.trans (hfv b)),
           (har a).symm.trans (hcon.2.trans (har b))⟩
  · push_neg at hf
    rw [entriesDistinct, mergeEntry_notfound old e (fun oe hm hc => hf oe hm hc.1 hc.2)]
    rw [List.pairwise_append]
    refine ⟨h, List.pairwise_singleton _ _, ?_⟩
    intro a ha b hb
    rw [List.mem_singleton] at hb
    subst hb
    intro hc
    exact hf a ha hc.1 hc.2

/-- `mapInsert` preserves the invariant when the inserted bucket value
satisfies it. -/
theorem bucketInvariant_mapInsert (adv : List (bucket × AdvisorySpecial))
    (k : bucket) (v : AdvisorySpecial)
    (hadv : bucketInvariant adv) (hv : entriesDistinct v.Entries) :
    bucketInvariant (mapInsert adv k v) := by
  intro b a hba
  by_cases hb : b = k
  · subst hb
    rw [alookup_mapInsert_self] at hba
    cases hba
    exact hv
  · rw [alookup_mapInsert_ne adv k b v hb] at hba
    exact hadv b a hba

/-- C7 (amended): `mergeAdvisories` maintains the invariant that within any
one bucket's entry list no two entries share an equal `FixedVersion`
together with arch-pattern lists that are equal AS ORDERED SEQUENCES; two
entries whose arch lists are mere permutations of each other are NOT
merged and may coexist. -/
theorem C7_amended_ordered_invariant (adv : List (bucket × AdvisorySpecial))
    (defs : List (bucket × DefinitionSpecial))
    (h : bucketInvariant adv) :
    bucketInvariant (mergeAdvisories adv defs) := by
  induction defs generalizing adv with
  | nil => exact h
  | cons p rest ih =>
    have hstep : mergeAdvisories adv (p :: rest) =
        mergeAdvisories
          (match alookup p.1 adv with
            | some old => mapInsert adv p.1 (mergeEntry old p.2.Entry)
            | none => mapInsert adv p.1 { Entries := [p.2.Entry] }) rest := rfl
    rw [hstep]
    apply ih
    cases hx : alookup p.1 adv with
    | some old =>
      exact bucketInvariant_mapInsert adv p.1 _ h
        (mergeEntry_entriesDistinct old p.2.Entry (h p.1 old hx))
    | none =>
      exact bucketInvariant_mapInsert adv p.1 _ h (List.pairwise_singleton _ _)

/-- C7 counterexample input: the shared bucket key. -/
def c7bkt : bucket :=
  { packageName := "libfoo", vulnerabilityID := "ALT-PU-2024-0001" }

/-- C7 counterexample input: an entry with arches `["x86_64", "i586"]`. -/
def c7e1 : Entry :=
  { CVEs := [], FixedVersion := "1.0-1", AffectedCPEList := ["p1"],
    Arches := ["x86_64", "i586"] }

/-- C7 counterexample input: same fixed version, same arches as a SET but
in the opposite order. -/
def c7e2 : Entry :=
  { CVEs := [], FixedVersion := "1.0-1", AffectedCPEList := ["p2"],
    Arches := ["i586", "x86_64"] }

/-- C7 is false as stated: merging two entries with equal fixed version
whose arch lists are permutations of each other (sets `{x86_64, i586}`)
leaves the bucket with TWO coexisting entries, because the code compares
arch lists with ordered `slices.Equal`. -/
theorem C7_counterexample :
    alookup c7bkt
        (mergeAdvisories (mergeAdvisories [] [(c7bkt, { Entry := c7e1 })])
          [(c7bkt, { Entry := c7e2 })]) =
      some { Entries := [c7e1, c7e2] } ∧
    c7e1.FixedVersion = c7e2.FixedVersion ∧
    c7e1.Arches ≠ c7e2.Arches ∧
    c7e1.Arches.Perm c7e2.Arches := by
  refine ⟨by decide, by decide, by decide, ?_⟩
  exact List.Perm.swap "i586" "x86_64" []

/-- Witness: the amended C7 invariant holds for the merged map built from
the two permuted-arch entries above. -/
theorem C7_witness :
    bucketInvariant
      (mergeAdvisories [] [(c7bkt, { Entry := c7e1 }), (c7bkt, { Entry := c7e2 })]) :=
  C7_amended_ordered_invariant []
    [(c7bkt, { Entry := c7e1 }), (c7bkt, { Entry := c7e2 })]
    (fun b a hba => by simp [alookup] at hba)

end AltOval
